import Mathlib

/-!
# postqlcheck: the probe loop and its outage bookkeeping

A shallow embedding of `main.go`: the shared `connection` record, the two
probers (`cachedConnection`, `threadedConnection`) and the calls they make.

Modelling conventions.

* `int64` fields (`Passed`, `Failed`) are integers kept in range by `wrap64`;
  `x++` is `inc64 x`.
* A `time.Time` is an integer, the instant in nanoseconds; the zero
  `time.Time` is `0`.  A `time.Duration` (`OutageElapsed`) is an `int64`
  number of nanoseconds: `time.Since t` is the difference between the clock
  and `t` clamped to the `int64` range (`timeSince`), and `+` on durations
  wraps around (`addDuration`).
* A round worker that closes an outage reads the clock twice, in `time.Now()`
  (line 118) and inside `time.Since` (line 119); the two readings are the
  inputs `Env.now` and `Env.sinceNow`.
* A panic is the `Except.error` branch; it carries the world as it was when
  the panic was raised, because stores made before a panic stay made.
* `try.This(f).Finally(g).Catch(h)` comes from the golib `try` package, which
  is not part of this program; it is taken to recover a panic of `f` and to
  hand it to `h`.
* A world is the shared record plus the chronological list of effects
  (database calls, stores into the record, log lines, sleeps, `wg.Done`).
* `main` calls `log.SetLevel(log.DEBUG)` unconditionally (line 170) and never
  reads the variable bound to `-l`, so every log call emits its line; a log
  effect in the trace is an emitted line.
* What the database answers and what the clock shows is the input `Env` of
  one execution.
* `threadedConnection` is embedded twice: as one uninterrupted function, for
  reports applied one after another, and as a step machine (`exec`) whose
  steps can be interleaved between the workers of a round.  The two agree
  when a worker runs alone (`runAlone_fresh`).
-/

namespace PostQLCheck

/-! ## Machine integers -/

/-- Two's-complement reduction of an integer to the `int64` range. -/
def wrap64 (x : Int) : Int := (x + 2 ^ 63) % 2 ^ 64 - 2 ^ 63

/-- Go's `x++` on an `int64`. -/
def inc64 (x : Int) : Int := wrap64 (x + 1)

/-- Clamping of an integer to the `int64` range, from `minDuration` to
`maxDuration`. -/
def sat64 (x : Int) : Int :=
  if x < -2 ^ 63 then -2 ^ 63 else if 2 ^ 63 - 1 < x then 2 ^ 63 - 1 else x

/-- Go's `time.Since(t)` when the clock shows `clock`: the elapsed nanoseconds as
a `time.Duration`, clamped where the difference does not fit. -/
def timeSince (clock t : Int) : Int := sat64 (clock - t)

/-- Go's `+` on two `time.Duration` values, an `int64` addition. -/
def addDuration (a b : Int) : Int := wrap64 (a + b)

/-- Whether an integer lies in the `int64` range. -/
def fits64 (x : Int) : Bool := decide (-2 ^ 63 ≤ x) && decide (x < 2 ^ 63)

/-! ## Data model (lines 18-33) -/

/-- The `connection` struct. -/
structure connection where
  Username : String
  Password : String
  Host : String
  DBName : String
  Timeout : String
  Query : String
  Count : Int
  Passed : Int
  Failed : Int
  DateStarted : Int
  DateFailed : Int
  DatePassed : Int
  IsFailed : Bool
  OutageElapsed : Int
deriving DecidableEq, Repr

/-- Effects of the program that are visible outside the record's final value. -/
inductive Event where
  | sqlOpen (dbinfo : String)
  | dbQuery (query : String)
  | dbClose
  | setPassed (v : Int)
  | setFailed (v : Int)
  | setIsFailed (b : Bool)
  | setDateFailed (t : Int)
  | setDatePassed (t : Int)
  | setOutageElapsed (d : Int)
  | logInfo (fmt : String)
  | logWarn (fmt : String)
  | logDebug (fmt : String)
  | sleep
  | wgDone
deriving DecidableEq, Repr

/-- The shared record together with the effects performed so far. -/
structure World where
  Con : connection
  trace : List Event
deriving DecidableEq, Repr

/-- Answers of the collaborators during one execution of a prober body: whether
`sql.Open` and `db.Query` return an error, what `time.Now()` returns (lines 118
and 127), and what the clock shows when `time.Since` reads it (line 119). -/
structure Env where
  openErr : Bool
  queryErr : Bool
  now : Int
  sinceNow : Int
deriving DecidableEq, Repr

/-- Append one effect to the trace. -/
def World.emit (w : World) (e : Event) : World :=
  { w with trace := w.trace ++ [e] }

/-- The statement `Con.Passed = v`. -/
def World.storePassed (w : World) (v : Int) : World :=
  { Con := { w.Con with Passed := v }, trace := w.trace ++ [Event.setPassed v] }

/-- The statement `Con.Failed = v`. -/
def World.storeFailed (w : World) (v : Int) : World :=
  { Con := { w.Con with Failed := v }, trace := w.trace ++ [Event.setFailed v] }

/-- The statement `Con.IsFailed = b`. -/
def World.storeIsFailed (w : World) (b : Bool) : World :=
  { Con := { w.Con with IsFailed := b }, trace := w.trace ++ [Event.setIsFailed b] }

/-- The statement `Con.DateFailed = t`. -/
def World.storeDateFailed (w : World) (t : Int) : World :=
  { Con := { w.Con with DateFailed := t }, trace := w.trace ++ [Event.setDateFailed t] }

/-- The statement `Con.DatePassed = t`. -/
def World.storeDatePassed (w : World) (t : Int) : World :=
  { Con := { w.Con with DatePassed := t }, trace := w.trace ++ [Event.setDatePassed t] }

/-- The statement `Con.OutageElapsed = d`. -/
def World.storeOutageElapsed (w : World) (d : Int) : World :=
  { Con := { w.Con with OutageElapsed := d }, trace := w.trace ++ [Event.setOutageElapsed d] }

/-! ## Operations -/

/-- Go's `checkErr` (lines 35-39): panic when the error is not nil. -/
def checkErr (err : Bool) (w : World) : Except World World :=
  if err then Except.error w else Except.ok w

/-- Go's `queryDB` (lines 41-57): run the query, panic when it fails, otherwise
log the time taken and sleep one second. -/
def queryDB (e : Env) (query : String) (w : World) : Except World World :=
  match checkErr e.queryErr (w.emit (Event.dbQuery query)) with
  | Except.error w1 => Except.error w1
  | Except.ok w1 => Except.ok ((w1.emit (Event.logDebug "Time taken %v")).emit Event.sleep)

/-- The chain `try.This(body).Finally(func() {}).Catch(handler)` of the golib
`try` package: the body runs; a panic raised in it is recovered and the handler
runs on the world the panic left behind; the `Finally` function is empty. -/
def tryThis (body : World → Except World World) (handler : World → World) (w : World) : World :=
  match body w with
  | Except.ok w1 => w1
  | Except.error w1 => handler w1

/-- The `fmt.Sprintf` of lines 60-61 and 109-110. -/
def dbinfo (Con : connection) : String :=
  "host=" ++ Con.Host ++ " user=" ++ Con.Username ++ " password=" ++ Con.Password
    ++ " dbname=" ++ Con.DBName ++ " connect_timeout=" ++ Con.Timeout ++ " sslmode=disable"

/-- The function passed to `try.This` in `threadedConnection` (lines 112-121). -/
def threadedBody (e : Env) (w : World) : Except World World :=
  match checkErr e.openErr (w.emit (Event.sqlOpen (dbinfo w.Con))) with
  | Except.error w1 => Except.error w1
  | Except.ok w1 =>
    match queryDB e w1.Con.Query w1 with
    | Except.error w2 => Except.error w2
    | Except.ok w2 =>
      let w3 := w2.storePassed (inc64 w2.Con.Passed)
      let w4 :=
        if w3.Con.IsFailed then
          let w5 := w3.storeIsFailed false
          let w6 := w5.storeDatePassed e.now
          w6.storeOutageElapsed
            (addDuration w6.Con.OutageElapsed (timeSince e.sinceNow w6.Con.DateFailed))
        else w3
      Except.ok (w4.emit Event.dbClose)

/-- The function passed to `Catch` in `threadedConnection` (lines 124-130). -/
def threadedCatch (e : Env) (w : World) : World :=
  let w1 :=
    if w.Con.IsFailed = false then
      let w2 := w.emit (Event.logWarn "Connections Failing!")
      let w3 := w2.storeIsFailed true
      w3.storeDateFailed e.now
    else w
  let w4 := w1.storeFailed (inc64 w1.Con.Failed)
  w4.emit Event.sleep

/-- Go's `threadedConnection` (lines 108-134): one round worker, run without
interruption by any other goroutine. -/
def threadedConnection (e : Env) (w : World) : World :=
  let w1 := tryThis (threadedBody e) (threadedCatch e) w
  (w1.emit (Event.logDebug "wg done")).emit Event.wgDone

/-- The function passed to `try.This` in `cachedConnection` (lines 71-72). -/
def cachedBody (e : Env) (w : World) : Except World World :=
  match queryDB e w.Con.Query w with
  | Except.error w1 => Except.error w1
  | Except.ok w1 => Except.ok (w1.storePassed (inc64 w1.Con.Passed))

/-- The function passed to `Catch` in `cachedConnection` (lines 75-77). -/
def cachedCatch (w : World) : World :=
  let w1 := w.emit (Event.logWarn "Cached connection FAILED!")
  let w2 := w1.storeFailed (inc64 w1.Con.Failed)
  w2.emit Event.sleep

/-- One iteration of the `for` loop of `cachedConnection` (lines 69-79). -/
def cachedIteration (e : Env) (w : World) : World :=
  tryThis (cachedBody e) cachedCatch w

/-- Go's `cachedConnection` (lines 59-80).  The loop never ends; the model runs
the iterations whose environments are listed and returns the world reached.
A failure of `sql.Open` panics before the loop and outside any `try`. -/
def cachedConnection (openErr : Bool) (iters : List Env) (w : World) : Except World World :=
  let w1 := w.emit (Event.logInfo "Using connection details: [%v]")
  match checkErr openErr (w1.emit (Event.sqlOpen (dbinfo w1.Con))) with
  | Except.error w2 => Except.error w2
  | Except.ok w2 => Except.ok (iters.foldl (fun acc e => cachedIteration e acc) w2)

/-- Command-line flags of `main` with their defaults (lines 160-167). -/
structure Flags where
  h : String := "127.0.0.1"
  d : String := "database_name"
  u : String := "myuser"
  p : String := "somepass"
  t : String := "1"
  q : String := "SELECT id FROM account;"
  c : Int := 0
  l : Int := 0
deriving DecidableEq, Repr

/-- Severity levels of the golib `log` package used by the program. -/
inductive Level where
  | debug
  | info
  | warn
deriving DecidableEq, Repr

/-- The level in force after line 170, `log.SetLevel(log.DEBUG)`: the value of
`-l` is parsed (line 167, whose usage text says the default is info) and never
read. -/
def logLevel (_f : Flags) : Level := Level.debug

/-- The record of `main` after `flag.Parse` (lines 148-168): zero values except
for the fields bound to flags. -/
def newRecord (f : Flags) : connection :=
  { Username := f.u, Password := f.p, Host := f.h, DBName := f.d, Timeout := f.t,
    Query := f.q, Count := f.c, Passed := 0, Failed := 0, DateStarted := 0,
    DateFailed := 0, DatePassed := 0, IsFailed := false, OutageElapsed := 0 }

/-- How `main` continues after parsing its flags. -/
inductive Run where
  | cachedOnly (r : Except World World)
  | concurrent (w : World)

/-- Go's `main` (lines 147-178).  With a positive count the cached prober is
started as a goroutine next to the rounds of `newConnection`, both working on
the world returned here.  Otherwise `cachedConnection` is called directly;
it does not return, so `newConnection` is never reached. -/
def main (f : Flags) (openErr : Bool) (iters : List Env) : Run :=
  let w : World := { Con := newRecord f, trace := [] }
  if f.c > 0 then Run.concurrent w
  else Run.cachedOnly (cachedConnection openErr iters w)

/-- The world inside a result, whether the run ended in a panic or not. -/
def worldOf : Except World World → World
  | Except.ok w => w
  | Except.error w => w

/-- One completed probe attempt: a round worker or a cached-prober iteration. -/
inductive Action where
  | worker (e : Env)
  | cached (e : Env)
deriving DecidableEq, Repr

/-- Whether the attempt ends in the `Catch` handler. -/
def Env.workerFails (e : Env) : Bool := e.openErr || e.queryErr

/-- Whether the attempt counts as a failure. -/
def Action.fails : Action → Bool
  | Action.worker e => e.workerFails
  | Action.cached e => e.queryErr

/-- Perform one attempt on the world. -/
def act (w : World) : Action → World
  | Action.worker e => threadedConnection e w
  | Action.cached e => cachedIteration e w

/-- Attempts performed one after another. -/
def runActions (as : List Action) (w : World) : World := as.foldl act w

/-- Round workers reporting one after another, in the order listed. -/
def runWorkers (es : List Env) (w : World) : World :=
  es.foldl (fun acc e => threadedConnection e acc) w

/-- Effects of one round worker started on record `s`. -/
def workerEvents (e : Env) (s : connection) : List Event :=
  (threadedConnection e { Con := s, trace := [] }).trace

/-- Effects of one cached-prober iteration started on record `s`. -/
def cachedEvents (e : Env) (s : connection) : List Event :=
  (cachedIteration e { Con := s, trace := [] }).trace

/-- Effects of round workers reporting one after another from record `s`. -/
def roundEvents (es : List Env) (s : connection) : List Event :=
  (runWorkers es { Con := s, trace := [] }).trace

/-- Whether a warning-level log line is among the effects. -/
def hasWarn (l : List Event) : Bool :=
  l.any (fun ev => match ev with
    | Event.logWarn _ => true
    | _ => false)

/-- The four-row outage transition table, written row by row from its
description, with the arithmetic of the Go types of the fields: what one
round-worker report does to the record.  Adding one to a counter is `inc64`,
the `++` of an `int64`; closing an outage stamps `DatePassed` with `now` and
adds `time.Since(DateFailed)`, read at `sinceNow`, as a `time.Duration`. -/
def outageTable (s : connection) (failure : Bool) (now sinceNow : Int) : connection :=
  match failure, s.IsFailed with
  | true, false => { s with IsFailed := true, DateFailed := now, Failed := inc64 s.Failed }
  | true, true => { s with Failed := inc64 s.Failed }
  | false, true =>
      { s with IsFailed := false, DatePassed := now,
               OutageElapsed := addDuration s.OutageElapsed (timeSince sinceNow s.DateFailed),
               Passed := inc64 s.Passed }
  | false, false => { s with Passed := inc64 s.Passed }

/-- The same table with one instant `now` for the whole report and the exact
difference `now - DateFailed` added exactly to `OutageElapsed`. -/
def outageTableExact (s : connection) (failure : Bool) (now : Int) : connection :=
  match failure, s.IsFailed with
  | true, false => { s with IsFailed := true, DateFailed := now, Failed := inc64 s.Failed }
  | true, true => { s with Failed := inc64 s.Failed }
  | false, true =>
      { s with IsFailed := false, DatePassed := now,
               OutageElapsed := s.OutageElapsed + (now - s.DateFailed),
               Passed := inc64 s.Passed }
  | false, false => { s with Passed := inc64 s.Passed }

/-- The record of a run started with `-c 3`. -/
def record3 : connection := newRecord { c := 3 }

/-- The record of a run started with `-c 3` while an outage is open since instant `10`. -/
def record3Down : connection := { record3 with IsFailed := true, DateFailed := 10, Failed := 3 }

/-- Number of stores `Con.IsFailed = true` among the effects: how often the
transition from up to down was taken. -/
def countDown (l : List Event) : Nat := l.count (Event.setIsFailed true)

/-- Number of stores into `Con.DateFailed` among the effects. -/
def countDateFailed (l : List Event) : Nat :=
  l.countP (fun ev => match ev with
    | Event.setDateFailed _ => true
    | _ => false)

/-- The outage episodes closed by a sequence of round-worker reports, each as
(instant of the failure that opened it, instant at which the success that
closed it read the clock in `time.Since`).  The first argument is the opening
instant of the episode that is open when the sequence starts, if there is one.
A failure opens an episode when none is open and is otherwise ignored; a
success closes the open episode; an episode still open at the end is not
listed. -/
def closedEpisodes : Option Int → List Env → List (Int × Int)
  | _, [] => []
  | none, e :: es =>
      if e.workerFails then closedEpisodes (some e.now) es else closedEpisodes none es
  | some t0, e :: es =>
      if e.workerFails then closedEpisodes (some t0) es
      else (t0, e.sinceNow) :: closedEpisodes none es

/-- Whether every listed episode has a length in the `int64` range and every
running total, starting from `acc`, stays in it: no `time.Duration` involved
is clamped or wraps around. -/
def episodesFit : Int → List (Int × Int) → Bool
  | _, [] => true
  | acc, p :: r =>
      fits64 (p.2 - p.1) && fits64 (acc + (p.2 - p.1)) && episodesFit (acc + (p.2 - p.1)) r

/-- The opening instant of the outage that is open in a record, if one is. -/
def openEpisode (s : connection) : Option Int :=
  if s.IsFailed then some s.DateFailed else none

/-- Total duration of a list of episodes. -/
def episodeTotal (eps : List (Int × Int)) : Int := (eps.map (fun p => p.2 - p.1)).sum

/-! ## Interleaved execution of the workers of one round

`threadedConnection` again, cut into the steps at which it touches the shared
record: every load and every store of `Passed`, `Failed`, `IsFailed`,
`DateFailed` and `OutageElapsed` is a step of its own, so that the steps of
several workers can be interleaved. -/

/-- Program points of `threadedConnection`. -/
inductive PC where
  | start
  | query
  | loadPassed
  | storePassed
  | testIsFailed
  | clearIsFailed
  | stampPassed
  | loadElapsed
  | loadDateFailed
  | storeElapsed
  | close
  | catchTest
  | warn
  | raiseIsFailed
  | stampFailed
  | loadFailed
  | storeFailed
  | catchSleep
  | logDone
  | done
  | finished
deriving DecidableEq, Repr

/-- One goroutine running `threadedConnection`: what its collaborators answer,
where it stands, and the two values it has loaded and not yet used. -/
structure Worker where
  env : Env
  pc : PC
  reg : Int
  reg2 : Int
deriving DecidableEq, Repr

/-- One step of a worker on the shared record: the worker afterwards, the
record afterwards and the effects of the step. -/
def exec (wk : Worker) (s : connection) : Worker × connection × List Event :=
  match wk.pc with
  | PC.start =>
      -- lines 112-113
      ({ wk with pc := if wk.env.openErr then PC.catchTest else PC.query }, s,
        [Event.sqlOpen (dbinfo s)])
  | PC.query =>
      -- line 114
      if wk.env.queryErr then
        ({ wk with pc := PC.catchTest }, s, [Event.dbQuery s.Query])
      else
        ({ wk with pc := PC.loadPassed }, s,
          [Event.dbQuery s.Query, Event.logDebug "Time taken %v", Event.sleep])
  | PC.loadPassed =>
      -- line 115, the load of `Con.Passed++`
      ({ wk with pc := PC.storePassed, reg := s.Passed }, s, [])
  | PC.storePassed =>
      -- line 115, the store of `Con.Passed++`
      ({ wk with pc := PC.testIsFailed }, { s with Passed := inc64 wk.reg },
        [Event.setPassed (inc64 wk.reg)])
  | PC.testIsFailed =>
      -- line 116
      ({ wk with pc := if s.IsFailed then PC.clearIsFailed else PC.close }, s, [])
  | PC.clearIsFailed =>
      -- line 117
      ({ wk with pc := PC.stampPassed }, { s with IsFailed := false }, [Event.setIsFailed false])
  | PC.stampPassed =>
      -- line 118
      ({ wk with pc := PC.loadElapsed }, { s with DatePassed := wk.env.now },
        [Event.setDatePassed wk.env.now])
  | PC.loadElapsed =>
      -- line 119, the load of `Con.OutageElapsed`
      ({ wk with pc := PC.loadDateFailed, reg := s.OutageElapsed }, s, [])
  | PC.loadDateFailed =>
      -- line 119, the load of `Con.DateFailed`
      ({ wk with pc := PC.storeElapsed, reg2 := s.DateFailed }, s, [])
  | PC.storeElapsed =>
      -- line 119, the clock read of `time.Since`, the addition and the store
      ({ wk with pc := PC.close },
        { s with OutageElapsed := addDuration wk.reg (timeSince wk.env.sinceNow wk.reg2) },
        [Event.setOutageElapsed (addDuration wk.reg (timeSince wk.env.sinceNow wk.reg2))])
  | PC.close =>
      -- line 121
      ({ wk with pc := PC.logDone }, s, [Event.dbClose])
  | PC.catchTest =>
      -- line 124
      ({ wk with pc := if s.IsFailed = false then PC.warn else PC.loadFailed }, s, [])
  | PC.warn =>
      -- line 125
      ({ wk with pc := PC.raiseIsFailed }, s, [Event.logWarn "Connections Failing!"])
  | PC.raiseIsFailed =>
      -- line 126
      ({ wk with pc := PC.stampFailed }, { s with IsFailed := true }, [Event.setIsFailed true])
  | PC.stampFailed =>
      -- line 127
      ({ wk with pc := PC.loadFailed }, { s with DateFailed := wk.env.now },
        [Event.setDateFailed wk.env.now])
  | PC.loadFailed =>
      -- line 129, the load of `Con.Failed++`
      ({ wk with pc := PC.storeFailed, reg := s.Failed }, s, [])
  | PC.storeFailed =>
      -- line 129, the store of `Con.Failed++`
      ({ wk with pc := PC.catchSleep }, { s with Failed := inc64 wk.reg },
        [Event.setFailed (inc64 wk.reg)])
  | PC.catchSleep =>
      -- line 130
      ({ wk with pc := PC.logDone }, s, [Event.sleep])
  | PC.logDone =>
      -- line 132
      ({ wk with pc := PC.done }, s, [Event.logDebug "wg done"])
  | PC.done =>
      -- line 133
      ({ wk with pc := PC.finished }, s, [Event.wgDone])
  | PC.finished => (wk, s, [])

/-- The goroutines of one round, the record they share, and the effects so
far, each with the index of the worker that performed it. -/
structure Pool where
  Con : connection
  trace : List (Nat × Event)
  workers : List Worker
deriving DecidableEq, Repr

/-- Worker `i` takes one step. -/
def Pool.step (p : Pool) (i : Nat) : Pool :=
  match p.workers[i]? with
  | none => p
  | some wk =>
      { Con := (exec wk p.Con).2.1,
        trace := p.trace ++ (exec wk p.Con).2.2.map (fun ev => (i, ev)),
        workers := p.workers.set i (exec wk p.Con).1 }

/-- The workers step in the order given by the schedule. -/
def Pool.run (sched : List Nat) (p : Pool) : Pool := sched.foldl Pool.step p

/-- The inner loop of `newConnection` (lines 90-92): `Con.Count` goroutines are
started on the shared record; `envs x` is what worker `x` will meet. -/
def newConnectionRound (envs : Nat → Env) (s : connection) : Pool :=
  { Con := s, trace := [],
    workers := (List.range s.Count.toNat).map
      (fun x => { env := envs x, pc := PC.start, reg := 0, reg2 := 0 }) }

/-- Whether every worker has called `wg.Done`: the barrier of line 93 opens. -/
def Pool.allFinished (p : Pool) : Bool := p.workers.all (fun wk => wk.pc == PC.finished)

/-- The longest path through `threadedConnection`, in steps. -/
def maxSteps : Nat := 13

/-- The schedule in which the workers run one at a time, in the order listed,
each to completion before the next one starts. -/
def serialSchedule (order : List Nat) : List Nat :=
  (order.map (fun i => List.replicate maxSteps i)).flatten

/-- The two edges of an outage episode among the effects: `true` for the store
`Con.IsFailed = true` that opens one, `false` for the store into
`Con.OutageElapsed` that accounts for its closing. -/
def edgeOf : Event → Option Bool
  | Event.setIsFailed true => some true
  | Event.setOutageElapsed _ => some false
  | _ => none

/-- The edges of a trace, in order. -/
def edges (tr : List (Nat × Event)) : List Bool := tr.filterMap (fun p => edgeOf p.2)

/-- Whether openings and closings take turns, given whether an outage is open
at the start: no outage is opened twice without a closing in between, and no
closing is accounted twice without an opening in between. -/
def alternating : Bool → List Bool → Bool
  | _, [] => true
  | down, x :: xs => (x != down) && alternating x xs

/-- Two workers, both meeting a failing query, started on the fresh record of
a run with `-c 2`, stepping in turns. -/
def racyFailures : Pool :=
  Pool.run [0, 1, 0, 1, 0, 1, 0, 1, 0, 1, 0, 1, 0, 1, 0, 1, 0, 1, 0, 1, 0, 1]
    (newConnectionRound (fun _ => { openErr := false, queryErr := true, now := 20, sinceNow := 20 })
      (newRecord { c := 2 }))

/-- Two workers, both succeeding, started while an outage is open since instant
`10`; the second tests `IsFailed` before the first has cleared it and then
waits until the first is done. -/
def racySuccesses : Pool :=
  Pool.run [0, 0, 0, 0, 0, 1, 1, 1, 1, 1, 0, 0, 0, 0, 0, 0, 0, 0, 1, 1, 1, 1, 1, 1, 1, 1]
    (newConnectionRound (fun x => { openErr := false, queryErr := false, now := 30 + x, sinceNow := 30 + x })
      { newRecord { c := 2 } with IsFailed := true, DateFailed := 10, Failed := 2 })

/-- A worker taking `n` steps in a row with nobody else stepping: the worker
and the record afterwards, and the effects in order. -/
def runAlone : Nat → Worker → connection → Worker × connection × List Event
  | 0, wk, s => (wk, s, [])
  | n + 1, wk, s =>
      ((runAlone n (exec wk s).1 (exec wk s).2.1).1,
       (runAlone n (exec wk s).1 (exec wk s).2.1).2.1,
       (exec wk s).2.2 ++ (runAlone n (exec wk s).1 (exec wk s).2.1).2.2)

/-- What a finished round must satisfy for the bookkeeping to be right: the
openings and closings of outages take turns, and each counter has received one
increment per worker that succeeded, respectively failed. -/
def soundRound (envs : Nat → Env) (s : connection) (p : Pool) : Bool :=
  alternating s.IsFailed (edges p.trace)
  && p.Con.Passed ==
      inc64^[(List.range s.Count.toNat).countP (fun x => !(envs x).workerFails)] s.Passed
  && p.Con.Failed ==
      inc64^[(List.range s.Count.toNat).countP (fun x => (envs x).workerFails)] s.Failed

/-- Four reports with non-decreasing clock readings: an outage from instant 0
to instant 2^63 - 1, then one from 2^63 - 1 to 2^63 + 9. -/
def longOutages : List Env :=
  [⟨false, true, 0, 0⟩,
   ⟨false, false, 9223372036854775807, 9223372036854775807⟩,
   ⟨false, true, 9223372036854775807, 9223372036854775807⟩,
   ⟨false, false, 9223372036854775817, 9223372036854775817⟩]

/-- A record in which an outage is open since instant 0 and `OutageElapsed` has
reached the largest `time.Duration`. -/
def recordFull : connection :=
  { record3 with IsFailed := true, DateFailed := 0, Failed := 3,
                 OutageElapsed := 9223372036854775807 }

/-- A record in which an outage is open since instant 0. -/
def recordOpen : connection := { record3 with IsFailed := true, DateFailed := 0, Failed := 3 }

/-! ## One execution of a prober body -/

theorem wrap64_of_fits (x : Int) (h : fits64 x = true) : wrap64 x = x := by
  simp only [fits64, Bool.and_eq_true, decide_eq_true_eq] at h
  simp only [wrap64]
  omega

theorem sat64_of_fits (x : Int) (h : fits64 x = true) : sat64 x = x := by
  simp only [fits64, Bool.and_eq_true, decide_eq_true_eq] at h
  simp only [sat64]
  split_ifs <;> omega

theorem threadedConnection_Con (e : Env) (w : World) :
    (threadedConnection e w).Con = outageTable w.Con e.workerFails e.now e.sinceNow := by
  obtain ⟨s, tr⟩ := w
  obtain ⟨oe, qe, now, snow⟩ := e
  cases oe <;> cases qe <;> cases hf : s.IsFailed <;>
    simp [threadedConnection, tryThis, threadedBody, threadedCatch, queryDB, checkErr,
      World.emit, World.storePassed, World.storeFailed, World.storeIsFailed,
      World.storeDateFailed, World.storeDatePassed, World.storeOutageElapsed,
      outageTable, Env.workerFails, hf]

theorem threadedConnection_trace (e : Env) (w : World) :
    (threadedConnection e w).trace = w.trace ++ workerEvents e w.Con := by
  obtain ⟨s, tr⟩ := w
  obtain ⟨oe, qe, now, snow⟩ := e
  cases oe <;> cases qe <;> cases hf : s.IsFailed <;>
    simp [workerEvents, threadedConnection, tryThis, threadedBody, threadedCatch, queryDB,
      checkErr, World.emit, World.storePassed, World.storeFailed, World.storeIsFailed,
      World.storeDateFailed, World.storeDatePassed, World.storeOutageElapsed, hf]

theorem cachedIteration_Con (e : Env) (w : World) :
    (cachedIteration e w).Con =
      if e.queryErr then { w.Con with Failed := inc64 w.Con.Failed }
      else { w.Con with Passed := inc64 w.Con.Passed } := by
  obtain ⟨s, tr⟩ := w
  obtain ⟨oe, qe, now, snow⟩ := e
  cases qe <;>
    simp [cachedIteration, tryThis, cachedBody, cachedCatch, queryDB, checkErr,
      World.emit, World.storePassed, World.storeFailed]

/-- The effects of a round worker, spelled out for each way it can run. -/
theorem workerEvents_eq (e : Env) (s : connection) :
    workerEvents e s =
      [Event.sqlOpen (dbinfo s)]
      ++ (if e.openErr then [] else [Event.dbQuery s.Query])
      ++ (if e.workerFails then
            (if s.IsFailed then []
             else [Event.logWarn "Connections Failing!", Event.setIsFailed true,
                   Event.setDateFailed e.now])
            ++ [Event.setFailed (inc64 s.Failed), Event.sleep]
          else
            [Event.logDebug "Time taken %v", Event.sleep, Event.setPassed (inc64 s.Passed)]
            ++ (if s.IsFailed then
                  [Event.setIsFailed false, Event.setDatePassed e.now,
                   Event.setOutageElapsed
                     (addDuration s.OutageElapsed (timeSince e.sinceNow s.DateFailed))]
                else [])
            ++ [Event.dbClose])
      ++ [Event.logDebug "wg done", Event.wgDone] := by
  obtain ⟨oe, qe, now, snow⟩ := e
  cases oe <;> cases qe <;> cases hf : s.IsFailed <;>
    simp [workerEvents, threadedConnection, tryThis, threadedBody, threadedCatch, queryDB,
      checkErr, World.emit, World.storePassed, World.storeFailed, World.storeIsFailed,
      World.storeDateFailed, World.storeDatePassed, World.storeOutageElapsed,
      Env.workerFails, hf]

/-- The effects of a cached-prober iteration. -/
theorem cachedEvents_eq (e : Env) (s : connection) :
    cachedEvents e s =
      [Event.dbQuery s.Query]
      ++ (if e.queryErr then
            [Event.logWarn "Cached connection FAILED!", Event.setFailed (inc64 s.Failed),
             Event.sleep]
          else
            [Event.logDebug "Time taken %v", Event.sleep, Event.setPassed (inc64 s.Passed)]) := by
  obtain ⟨oe, qe, now, snow⟩ := e
  cases qe <;>
    simp [cachedEvents, cachedIteration, tryThis, cachedBody, cachedCatch, queryDB, checkErr,
      World.emit, World.storePassed, World.storeFailed]

/-! ## Claims about one execution -/

/-- C2 (as stated, refuted): a success that closes an outage does not always add
`now - DateFailed`, with `now` the instant put into `DatePassed`.  With
`OutageElapsed` at the largest `time.Duration` the addition wraps around; with
an outage older than 2^63 - 1 nanoseconds `time.Since` is clamped; and when the
clock has moved on between `time.Now()` and `time.Since`, the amount added is
measured to the later reading, whichever of the two is taken for `now`. -/
theorem outageTableExact_counterexample :
    (threadedConnection ⟨false, false, 10, 10⟩ { Con := recordFull, trace := [] }).Con.OutageElapsed
        ≠ (outageTableExact recordFull false 10).OutageElapsed
    ∧ (threadedConnection ⟨false, false, 63929384658869126067, 63929384658869126067⟩
          { Con := recordOpen, trace := [] }).Con.OutageElapsed
        ≠ (outageTableExact recordOpen false 63929384658869126067).OutageElapsed
    ∧ (threadedConnection ⟨false, false, 11000846186, 11000846615⟩
          { Con := recordOpen, trace := [] }).Con
        ≠ outageTableExact recordOpen false 11000846186
    ∧ (threadedConnection ⟨false, false, 11000846186, 11000846615⟩
          { Con := recordOpen, trace := [] }).Con
        ≠ outageTableExact recordOpen false 11000846615 := by
  refine ⟨?_, ?_, ?_, ?_⟩
  · simp [threadedConnection_Con, outageTable, outageTableExact, Env.workerFails, recordFull,
      record3, newRecord, addDuration, timeSince, sat64, wrap64]
  · simp [threadedConnection_Con, outageTable, outageTableExact, Env.workerFails, recordOpen,
      record3, newRecord, addDuration, timeSince, sat64, wrap64]
  · intro h
    have h1 := congrArg connection.OutageElapsed h
    simp [threadedConnection_Con, outageTable, outageTableExact, Env.workerFails, recordOpen,
      record3, newRecord, addDuration, timeSince, sat64, wrap64] at h1
  · intro h
    have h1 := congrArg connection.DatePassed h
    simp [threadedConnection_Con, outageTable, outageTableExact, Env.workerFails, recordOpen,
      record3, newRecord] at h1

/-- C2 (amended): for every record, every outcome (open error, query error or
success) and every pair of clock readings, the record left by one round worker
is the one given by the four-row table in which a success that closes an outage
stamps `DatePassed` with the reading of `time.Now()` and adds
`time.Since(DateFailed)`, taken at the later reading and clamped to the range of
`time.Duration`, to `OutageElapsed` by `int64` addition.  On the other three
rows, and on this row when both readings are one instant `now` and neither
`now - DateFailed` nor the new total leaves the `int64` range, that is the table
with `now - DateFailed` added exactly. -/
theorem threadedConnection_follows_outageTable (e : Env) (w : World) :
    (threadedConnection e w).Con = outageTable w.Con e.workerFails e.now e.sinceNow
    ∧ ((e.workerFails = true ∨ w.Con.IsFailed = false
          ∨ (e.sinceNow = e.now ∧ fits64 (e.now - w.Con.DateFailed) = true
              ∧ fits64 (w.Con.OutageElapsed + (e.now - w.Con.DateFailed)) = true)) →
        (threadedConnection e w).Con = outageTableExact w.Con e.workerFails e.now) := by
  refine ⟨threadedConnection_Con e w, ?_⟩
  intro h
  rw [threadedConnection_Con]
  rcases Bool.eq_false_or_eq_true e.workerFails with hf | hf <;>
    cases hd : w.Con.IsFailed <;>
    simp only [outageTable, outageTableExact, hf, hd]
  rcases h with h | h | ⟨hs, h1, h2⟩
  · simp [hf] at h
  · simp [hd] at h
  · rw [hs, timeSince, sat64_of_fits _ h1, addDuration, wrap64_of_fits _ h2]

/-- C2 (amended) at a concrete report: an outage open since instant 10 is closed
at instant 25 and 15 nanoseconds are added. -/
theorem threadedConnection_follows_outageTable_witness :
    (threadedConnection ⟨false, false, 25, 25⟩ { Con := record3Down, trace := [] }).Con
      = outageTableExact record3Down false 25 :=
  (threadedConnection_follows_outageTable ⟨false, false, 25, 25⟩
    { Con := record3Down, trace := [] }).2 (Or.inr (Or.inr ⟨rfl, by decide, by decide⟩))

/-- C6 (defect): for every record and instant, a round worker whose connection
opened and whose query fails reports completion (`wg.Done`) without ever closing
the connection, whereas the worker whose query succeeds closes it right before
reporting; the effects of both runs on the fresh record are listed. -/
theorem threadedConnection_query_failure_skips_close :
    (∀ (s : connection) (now sinceNow : Int),
        Event.dbClose ∉ workerEvents { openErr := false, queryErr := true, now := now, sinceNow := sinceNow } s
        ∧ Event.wgDone ∈ workerEvents { openErr := false, queryErr := true, now := now, sinceNow := sinceNow } s
        ∧ Event.dbClose ∈ workerEvents { openErr := false, queryErr := false, now := now, sinceNow := sinceNow } s)
    ∧ workerEvents { openErr := false, queryErr := true, now := 20, sinceNow := 20 } record3 =
        [Event.sqlOpen (dbinfo record3), Event.dbQuery "SELECT id FROM account;",
         Event.logWarn "Connections Failing!", Event.setIsFailed true, Event.setDateFailed 20,
         Event.setFailed 1, Event.sleep, Event.logDebug "wg done", Event.wgDone]
    ∧ workerEvents { openErr := false, queryErr := false, now := 20, sinceNow := 20 } record3 =
        [Event.sqlOpen (dbinfo record3), Event.dbQuery "SELECT id FROM account;",
         Event.logDebug "Time taken %v", Event.sleep, Event.setPassed 1, Event.dbClose,
         Event.logDebug "wg done", Event.wgDone] := by
  refine ⟨?_, ?_, ?_⟩
  · intro s now sinceNow
    cases hf : s.IsFailed <;> simp [workerEvents_eq, Env.workerFails, hf]
  · simp [workerEvents_eq, Env.workerFails, record3, newRecord, inc64, wrap64]
  · simp [workerEvents_eq, Env.workerFails, record3, newRecord, inc64, wrap64]

/-- C7 (as stated, refuted): with `sql.Open` failing on the fresh record, it is
not the case that `Failed` and `IsFailed` stay as they were and that `wg.Done`
is never reached. -/
theorem open_failure_fatal_counterexample :
    ¬ ((threadedConnection { openErr := true, queryErr := false, now := 20, sinceNow := 20 }
            { Con := record3, trace := [] }).Con.Failed = record3.Failed
        ∧ (threadedConnection { openErr := true, queryErr := false, now := 20, sinceNow := 20 }
            { Con := record3, trace := [] }).Con.IsFailed = record3.IsFailed
        ∧ Event.wgDone ∉ workerEvents { openErr := true, queryErr := false, now := 20, sinceNow := 20 } record3) := by
  intro h
  have h1 := h.1
  simp [threadedConnection_Con, outageTable, Env.workerFails, record3, newRecord, inc64,
    wrap64] at h1

/-- C7 (amended): when `sql.Open` fails in a round worker the panic of `checkErr`
is recovered by the surrounding `try`: the worker takes the failure row of the
table (`Failed` incremented, outage opened if none is open), runs no query,
closes nothing, and reports completion. -/
theorem open_failure_is_caught (s : connection) (qe : Bool) (now sinceNow : Int) :
    (threadedConnection { openErr := true, queryErr := qe, now := now, sinceNow := sinceNow }
        { Con := s, trace := [] }).Con = outageTable s true now sinceNow
    ∧ workerEvents { openErr := true, queryErr := qe, now := now, sinceNow := sinceNow } s =
        [Event.sqlOpen (dbinfo s)]
        ++ (if s.IsFailed then []
            else [Event.logWarn "Connections Failing!", Event.setIsFailed true,
                  Event.setDateFailed now])
        ++ [Event.setFailed (inc64 s.Failed), Event.sleep, Event.logDebug "wg done",
            Event.wgDone] := by
  constructor
  · simp [threadedConnection_Con, Env.workerFails]
  · simp [workerEvents_eq, Env.workerFails]

/-- C9: one iteration of the cached prober adds one (`inc64`) to `Passed` on
success and to `Failed` on failure and leaves every other field as it was; a run with
`-c 0`, which is the cached prober alone, keeps `IsFailed` false and
`OutageElapsed` zero whatever the database answers. -/
theorem cachedIteration_only_counts :
    (∀ (e : Env) (w : World),
        (cachedIteration e w).Con =
          if e.queryErr then { w.Con with Failed := inc64 w.Con.Failed }
          else { w.Con with Passed := inc64 w.Con.Passed })
    ∧ (∀ (f : Flags) (openErr : Bool) (iters : List Env), f.c = 0 →
        ∃ r, main f openErr iters = Run.cachedOnly r
          ∧ (worldOf r).Con.IsFailed = false ∧ (worldOf r).Con.OutageElapsed = 0) := by
  refine ⟨cachedIteration_Con, ?_⟩
  intro f openErr iters hc
  refine ⟨cachedConnection openErr iters { Con := newRecord f, trace := [] }, ?_, ?_⟩
  · simp [main, hc]
  · have key : ∀ (l : List Env) (w : World),
        (l.foldl (fun acc e => cachedIteration e acc) w).Con.IsFailed = w.Con.IsFailed
        ∧ (l.foldl (fun acc e => cachedIteration e acc) w).Con.OutageElapsed
            = w.Con.OutageElapsed := by
      intro l
      induction l with
      | nil => intro w; simp
      | cons e l ih =>
        intro w
        rw [List.foldl_cons]
        obtain ⟨h1, h2⟩ := ih (cachedIteration e w)
        rw [h1, h2, cachedIteration_Con]
        split <;> simp
    cases openErr
    · simpa [cachedConnection, checkErr, worldOf, World.emit, newRecord] using
        key iters { Con := newRecord f,
                    trace := [Event.logInfo "Using connection details: [%v]",
                              Event.sqlOpen (dbinfo (newRecord f))] }
    · simp [cachedConnection, checkErr, worldOf, World.emit, newRecord]

/-- C9 at a concrete run: `-c 0` with three iterations, the second one failing. -/
theorem cachedIteration_only_counts_witness :
    ∃ r, main {} false [⟨false, false, 1, 1⟩, ⟨false, true, 2, 2⟩, ⟨false, false, 3, 3⟩]
          = Run.cachedOnly r
      ∧ (worldOf r).Con.IsFailed = false ∧ (worldOf r).Con.OutageElapsed = 0 :=
  cachedIteration_only_counts.2 {} false
    [⟨false, false, 1, 1⟩, ⟨false, true, 2, 2⟩, ⟨false, false, 3, 3⟩] rfl

/-- C10 (as stated, refuted): a round worker whose query fails while
`IsFailed` is already true emits no warning-level line. -/
theorem failure_warning_counterexample :
    Env.workerFails { openErr := false, queryErr := true, now := 20, sinceNow := 20 } = true
    ∧ hasWarn (workerEvents { openErr := false, queryErr := true, now := 20, sinceNow := 20 } record3Down)
        = false := by
  constructor
  · rfl
  · simp [workerEvents_eq, Env.workerFails, hasWarn, record3Down, record3, newRecord]

/-- C10 (amended): a failed iteration of the cached prober always logs a
warning; a failed round worker logs a warning exactly when `IsFailed` is false
at that moment, so a failure inside an open outage logs none, and it is counted
in `Failed` all the same. -/
theorem failure_warning_only_on_outage_start (e : Env) (s : connection) :
    (e.queryErr = true → hasWarn (cachedEvents e s) = true)
    ∧ (e.workerFails = true → (hasWarn (workerEvents e s) = true ↔ s.IsFailed = false))
    ∧ (e.workerFails = true →
        (threadedConnection e { Con := s, trace := [] }).Con.Failed = inc64 s.Failed) := by
  refine ⟨?_, ?_, ?_⟩
  · intro h
    simp [cachedEvents_eq, h, hasWarn]
  · intro h
    cases hf : s.IsFailed <;> cases ho : e.openErr <;>
      simp [workerEvents_eq, h, hf, ho, hasWarn]
  · intro h
    rw [threadedConnection_Con]
    cases hf : s.IsFailed <;> simp [outageTable, h, hf]

/-- C10 (amended) at concrete inputs: a failing query on the fresh record, and
one inside an open outage. -/
theorem failure_warning_only_on_outage_start_witness :
    hasWarn (cachedEvents ⟨false, true, 20, 20⟩ record3) = true
    ∧ (hasWarn (workerEvents ⟨false, true, 20, 20⟩ record3) = true ↔ record3.IsFailed = false)
    ∧ (threadedConnection ⟨false, true, 20, 20⟩ { Con := record3Down, trace := [] }).Con.Failed
        = inc64 record3Down.Failed :=
  ⟨(failure_warning_only_on_outage_start ⟨false, true, 20, 20⟩ record3).1 rfl,
   (failure_warning_only_on_outage_start ⟨false, true, 20, 20⟩ record3).2.1 rfl,
   (failure_warning_only_on_outage_start ⟨false, true, 20, 20⟩ record3Down).2.2 rfl⟩

/-! ## Sequences of reports -/

theorem inc64_eq (x : Int) (h0 : 0 ≤ x) (h1 : x + 1 < 2 ^ 63) : inc64 x = x + 1 := by
  simp only [inc64, wrap64]
  omega

theorem act_Con_Passed (w : World) (a : Action) :
    (act w a).Con.Passed = if a.fails then w.Con.Passed else inc64 w.Con.Passed := by
  cases a with
  | worker e =>
    simp only [act, threadedConnection_Con, Action.fails]
    rcases Bool.eq_false_or_eq_true e.workerFails with h | h <;>
      cases hf : w.Con.IsFailed <;> simp [outageTable, hf, h]
  | cached e =>
    simp only [act, cachedIteration_Con, Action.fails]
    rcases Bool.eq_false_or_eq_true e.queryErr with h | h <;> simp [h]

theorem act_Con_Failed (w : World) (a : Action) :
    (act w a).Con.Failed = if a.fails then inc64 w.Con.Failed else w.Con.Failed := by
  cases a with
  | worker e =>
    simp only [act, threadedConnection_Con, Action.fails]
    rcases Bool.eq_false_or_eq_true e.workerFails with h | h <;>
      cases hf : w.Con.IsFailed <;> simp [outageTable, hf, h]
  | cached e =>
    simp only [act, cachedIteration_Con, Action.fails]
    rcases Bool.eq_false_or_eq_true e.queryErr with h | h <;> simp [h]

theorem runActions_counters (l : List Action) :
    ∀ (w : World), 0 ≤ w.Con.Passed → 0 ≤ w.Con.Failed →
      w.Con.Passed + w.Con.Failed + (l.length : Int) < 2 ^ 63 →
      (runActions l w).Con.Passed = w.Con.Passed + (l.countP (fun a => !a.fails) : Nat)
      ∧ (runActions l w).Con.Failed = w.Con.Failed + (l.countP Action.fails : Nat) := by
  induction l with
  | nil => intro w _ _ _; simp [runActions]
  | cons a l ih =>
    intro w hp hf hb
    simp only [List.length_cons, Nat.cast_add, Nat.cast_one] at hb
    have hstep : runActions (a :: l) w = runActions l (act w a) := by simp [runActions]
    rw [hstep]
    cases hfa : a.fails
    · have e1 : (act w a).Con.Passed = w.Con.Passed + 1 := by
        rw [act_Con_Passed, hfa]; simpa using inc64_eq _ hp (by omega)
      have e2 : (act w a).Con.Failed = w.Con.Failed := by rw [act_Con_Failed, hfa]; simp
      obtain ⟨i1, i2⟩ := ih (act w a) (by omega) (by omega) (by omega)
      rw [i1, i2, e1, e2]
      simp [List.countP_cons, hfa]
      omega
    · have e1 : (act w a).Con.Passed = w.Con.Passed := by rw [act_Con_Passed, hfa]; simp
      have e2 : (act w a).Con.Failed = w.Con.Failed + 1 := by
        rw [act_Con_Failed, hfa]; simpa using inc64_eq _ hf (by omega)
      obtain ⟨i1, i2⟩ := ih (act w a) (by omega) (by omega) (by omega)
      rw [i1, i2, e1, e2]
      simp [List.countP_cons, hfa]
      omega

theorem countP_succ_add_countP_fail (l : List Action) :
    l.countP (fun a => !a.fails) + l.countP Action.fails = l.length := by
  induction l with
  | nil => simp
  | cons a l ih =>
    cases hfa : a.fails <;> simp [List.countP_cons, hfa] <;> omega

/-- C1: starting from `Passed = 0` and `Failed = 0`, after every prefix of a
sequence of fewer than 2^63 probe attempts (round workers and cached-prober
iterations in any mix) `Passed` is the number of successes in the prefix,
`Failed` the number of failures, and their sum the number of attempts. -/
theorem counters_count_attempts (w : World) (as : List Action)
    (hP : w.Con.Passed = 0) (hF : w.Con.Failed = 0) (hlen : (as.length : Int) < 2 ^ 63) :
    ∀ pre, pre <+: as →
      (runActions pre w).Con.Passed = (pre.countP (fun a => !a.fails) : Nat)
      ∧ (runActions pre w).Con.Failed = (pre.countP Action.fails : Nat)
      ∧ (runActions pre w).Con.Passed + (runActions pre w).Con.Failed = (pre.length : Nat) := by
  intro pre hpre
  have hl : pre.length ≤ as.length := hpre.length_le
  obtain ⟨h1, h2⟩ := runActions_counters pre w (by omega) (by omega) (by omega)
  rw [hP] at h1
  rw [hF] at h2
  refine ⟨by simpa using h1, by simpa using h2, ?_⟩
  rw [h1, h2]
  have := countP_succ_add_countP_fail pre
  omega

/-- C1 at a concrete run: worker success, cached failure, worker failure. -/
theorem counters_count_attempts_witness :
    (runActions [Action.worker ⟨false, false, 1, 1⟩, Action.cached ⟨false, true, 2, 2⟩]
        { Con := record3, trace := [] }).Con.Passed = 1
    ∧ (runActions [Action.worker ⟨false, false, 1, 1⟩, Action.cached ⟨false, true, 2, 2⟩]
        { Con := record3, trace := [] }).Con.Failed = 1
    ∧ (runActions [Action.worker ⟨false, false, 1, 1⟩, Action.cached ⟨false, true, 2, 2⟩]
        { Con := record3, trace := [] }).Con.Passed
      + (runActions [Action.worker ⟨false, false, 1, 1⟩, Action.cached ⟨false, true, 2, 2⟩]
        { Con := record3, trace := [] }).Con.Failed = 2 := by
  have h := counters_count_attempts { Con := record3, trace := [] }
    [Action.worker ⟨false, false, 1, 1⟩, Action.cached ⟨false, true, 2, 2⟩,
     Action.worker ⟨true, false, 3, 3⟩] rfl rfl (by norm_num)
    [Action.worker ⟨false, false, 1, 1⟩, Action.cached ⟨false, true, 2, 2⟩]
    ⟨[Action.worker ⟨true, false, 3, 3⟩], rfl⟩
  simpa [Action.fails, Env.workerFails] using h

theorem runWorkers_snoc (es : List Env) (e : Env) (w : World) :
    runWorkers (es ++ [e]) w = threadedConnection e (runWorkers es w) := by
  simp [runWorkers, List.foldl_append]

theorem runWorkers_cons (e : Env) (es : List Env) (w : World) :
    runWorkers (e :: es) w = runWorkers es (threadedConnection e w) := by
  simp [runWorkers]

theorem threadedConnection_IsFailed (e : Env) (w : World) :
    (threadedConnection e w).Con.IsFailed = e.workerFails := by
  rw [threadedConnection_Con]
  rcases Bool.eq_false_or_eq_true e.workerFails with h | h <;>
    cases hf : w.Con.IsFailed <;> simp [outageTable, hf, h]

/-- C3: starting from `IsFailed = false`, the flag is false before any report
and, after every non-empty prefix of round-worker reports, true exactly when the
last report of the prefix was a failure. -/
theorem isFailed_tracks_last_outcome (w : World) (es : List Env)
    (h0 : w.Con.IsFailed = false) :
    ∀ pre, pre <+: es →
      (pre = [] → (runWorkers pre w).Con.IsFailed = false)
      ∧ (∀ e, pre.getLast? = some e →
          ((runWorkers pre w).Con.IsFailed = true ↔ e.workerFails = true)) := by
  intro pre _
  constructor
  · intro hnil
    subst hnil
    simpa [runWorkers] using h0
  · intro e he
    rcases List.eq_nil_or_concat pre with hnil | ⟨init, a, hpre⟩
    · subst hnil
      simp at he
    · subst hpre
      simp at he
      subst he
      rw [List.concat_eq_append]
      rw [runWorkers_snoc, threadedConnection_IsFailed]

/-- C3 at a concrete run: after success then failure the flag is true, the last
report of that prefix being a failure. -/
theorem isFailed_tracks_last_outcome_witness :
    ((runWorkers [⟨false, false, 1, 1⟩, ⟨false, true, 2, 2⟩]
        { Con := record3, trace := [] }).Con.IsFailed = true
      ↔ Env.workerFails ⟨false, true, 2, 2⟩ = true) :=
  (isFailed_tracks_last_outcome { Con := record3, trace := [] }
    [⟨false, false, 1, 1⟩, ⟨false, true, 2, 2⟩, ⟨false, false, 3, 3⟩] rfl
    [⟨false, false, 1, 1⟩, ⟨false, true, 2, 2⟩]
    ⟨[⟨false, false, 3, 3⟩], rfl⟩).2 ⟨false, true, 2, 2⟩ rfl

theorem step_OutageElapsed (e : Env) (w : World) :
    (threadedConnection e w).Con.OutageElapsed =
      if e.workerFails = false ∧ w.Con.IsFailed = true
      then addDuration w.Con.OutageElapsed (timeSince e.sinceNow w.Con.DateFailed)
      else w.Con.OutageElapsed := by
  rw [threadedConnection_Con]
  rcases Bool.eq_false_or_eq_true e.workerFails with h | h <;>
    cases hf : w.Con.IsFailed <;> simp [outageTable, hf, h]

theorem step_DateFailed (e : Env) (w : World) :
    (threadedConnection e w).Con.DateFailed =
      if e.workerFails = true ∧ w.Con.IsFailed = false then e.now else w.Con.DateFailed := by
  rw [threadedConnection_Con]
  rcases Bool.eq_false_or_eq_true e.workerFails with h | h <;>
    cases hf : w.Con.IsFailed <;> simp [outageTable, hf, h]

theorem step_openEpisode (e : Env) (w : World) :
    openEpisode (threadedConnection e w).Con =
      if e.workerFails = true then
        (if w.Con.IsFailed = true then some w.Con.DateFailed else some e.now)
      else none := by
  rw [threadedConnection_Con]
  rcases Bool.eq_false_or_eq_true e.workerFails with h | h <;>
    cases hf : w.Con.IsFailed <;> simp [openEpisode, outageTable, hf, h]

/-- One report, seen from the list of episodes: when nothing is clamped and
nothing wraps, the report adds to `OutageElapsed` exactly the episode it closes,
if it closes one, and the rest of the sequence starts from the record's new
state. -/
theorem step_fits (a : Env) (es : List Env) (w : World)
    (hfit : episodesFit w.Con.OutageElapsed
      (closedEpisodes (openEpisode w.Con) (a :: es)) = true) :
    episodesFit (threadedConnection a w).Con.OutageElapsed
        (closedEpisodes (openEpisode (threadedConnection a w).Con) es) = true
    ∧ (threadedConnection a w).Con.OutageElapsed
        + episodeTotal (closedEpisodes (openEpisode (threadedConnection a w).Con) es)
      = w.Con.OutageElapsed + episodeTotal (closedEpisodes (openEpisode w.Con) (a :: es))
    ∧ (a.workerFails = false → w.Con.IsFailed = true →
        (threadedConnection a w).Con.OutageElapsed
          = w.Con.OutageElapsed + (a.sinceNow - w.Con.DateFailed)
        ∧ fits64 (w.Con.OutageElapsed + (a.sinceNow - w.Con.DateFailed)) = true) := by
  rcases Bool.eq_false_or_eq_true a.workerFails with h | h
  · -- a failure: nothing is added
    have hOE : (threadedConnection a w).Con.OutageElapsed = w.Con.OutageElapsed := by
      rw [step_OutageElapsed]; simp [h]
    cases hf : w.Con.IsFailed
    · have hce : closedEpisodes (openEpisode w.Con) (a :: es)
          = closedEpisodes (some a.now) es := by
        simp [openEpisode, closedEpisodes, h, hf]
      have hop : openEpisode (threadedConnection a w).Con = some a.now := by
        rw [step_openEpisode]; simp [h, hf]
      rw [hce] at hfit
      rw [hOE, hop, hce]
      exact ⟨hfit, rfl, fun hn => by simp [h] at hn⟩
    · have hce : closedEpisodes (openEpisode w.Con) (a :: es)
          = closedEpisodes (some w.Con.DateFailed) es := by
        simp [openEpisode, closedEpisodes, h, hf]
      have hop : openEpisode (threadedConnection a w).Con = some w.Con.DateFailed := by
        rw [step_openEpisode]; simp [h, hf]
      rw [hce] at hfit
      rw [hOE, hop, hce]
      exact ⟨hfit, rfl, fun hn => by simp [h] at hn⟩
  · -- a success: the open episode, if any, is closed
    have hop : openEpisode (threadedConnection a w).Con = none := by
      rw [step_openEpisode]; simp [h]
    cases hf : w.Con.IsFailed
    · have hOE : (threadedConnection a w).Con.OutageElapsed = w.Con.OutageElapsed := by
        rw [step_OutageElapsed]; simp [hf]
      have hce : closedEpisodes (openEpisode w.Con) (a :: es) = closedEpisodes none es := by
        simp [openEpisode, closedEpisodes, h, hf]
      rw [hce] at hfit
      rw [hOE, hop, hce]
      exact ⟨hfit, rfl, fun _ hn => by simp at hn⟩
    · have hce : closedEpisodes (openEpisode w.Con) (a :: es)
          = (w.Con.DateFailed, a.sinceNow) :: closedEpisodes none es := by
        simp [openEpisode, closedEpisodes, h, hf]
      rw [hce] at hfit
      simp only [episodesFit, Bool.and_eq_true] at hfit
      obtain ⟨⟨hd, hsum⟩, hrest⟩ := hfit
      have hOE : (threadedConnection a w).Con.OutageElapsed
          = w.Con.OutageElapsed + (a.sinceNow - w.Con.DateFailed) := by
        rw [step_OutageElapsed, if_pos ⟨h, hf⟩, timeSince, sat64_of_fits _ hd, addDuration,
          wrap64_of_fits _ hsum]
      rw [hOE, hop, hce]
      refine ⟨hrest, ?_, fun _ _ => ⟨rfl, hsum⟩⟩
      simp [episodeTotal]
      ring

theorem runWorkers_OutageElapsed (es : List Env) :
    ∀ (w : World),
      episodesFit w.Con.OutageElapsed (closedEpisodes (openEpisode w.Con) es) = true →
      (runWorkers es w).Con.OutageElapsed =
        w.Con.OutageElapsed + episodeTotal (closedEpisodes (openEpisode w.Con) es) := by
  induction es with
  | nil =>
    intro w _
    cases h : openEpisode w.Con <;> simp [runWorkers, closedEpisodes, episodeTotal]
  | cons a es ih =>
    intro w hfit
    obtain ⟨h1, h2, _⟩ := step_fits a es w hfit
    rw [runWorkers_cons, ih _ h1, h2]

theorem closedEpisodes_nil (st : Option Int) : closedEpisodes st [] = [] := by
  cases st <;> rfl

theorem episodesFit_prefix (pre rest : List Env) :
    ∀ (st : Option Int) (acc : Int),
      episodesFit acc (closedEpisodes st (pre ++ rest)) = true →
      episodesFit acc (closedEpisodes st pre) = true := by
  induction pre with
  | nil => intro st acc _; simp [closedEpisodes_nil, episodesFit]
  | cons e pre ih =>
    intro st acc h
    rcases Bool.eq_false_or_eq_true e.workerFails with hf | hf <;> cases st <;>
      simp only [List.cons_append, closedEpisodes, hf, if_true, if_false, episodesFit,
        Bool.and_eq_true, Bool.false_eq_true] at h ⊢
    · exact ih _ _ h
    · exact ih _ _ h
    · exact ih _ _ h
    · exact ⟨h.1, ih _ _ h.2⟩

theorem runWorkers_OutageElapsed_mono (es : List Env) :
    ∀ (w : World),
      episodesFit w.Con.OutageElapsed (closedEpisodes (openEpisode w.Con) es) = true →
      (es.map Env.now).Pairwise (fun a b => a ≤ b) →
      (∀ x ∈ es, x.now ≤ x.sinceNow) →
      (w.Con.IsFailed = true → ∀ x ∈ es, w.Con.DateFailed ≤ x.now) →
      ∀ pre e, pre ++ [e] <+: es →
        (runWorkers pre w).Con.OutageElapsed
          ≤ (runWorkers (pre ++ [e]) w).Con.OutageElapsed := by
  induction es with
  | nil =>
    intro w _ _ _ _ pre e hpre
    have := hpre.length_le
    simp at this
  | cons a es ih =>
    intro w hfit hsorted hclock hdf pre e hpre
    obtain ⟨h1, _, h3⟩ := step_fits a es w hfit
    cases pre with
    | nil =>
      have hea : e = a := by simpa using hpre
      subst hea
      have hrun : runWorkers ([] ++ [e]) w = threadedConnection e w := by
        simp [runWorkers]
      have hrun0 : runWorkers [] w = w := by simp [runWorkers]
      rw [hrun, hrun0]
      rcases Bool.eq_false_or_eq_true e.workerFails with h | h
      · rw [step_OutageElapsed]; simp [h]
      · cases hf : w.Con.IsFailed
        · rw [step_OutageElapsed]; simp [hf]
        · rw [(h3 h hf).1]
          have d1 := hdf hf e (List.mem_cons_self _ _)
          have d2 := hclock e (List.mem_cons_self _ _)
          omega
    | cons b pre =>
      obtain ⟨hba, hrest⟩ := List.cons_prefix_cons.mp (by simpa using hpre)
      subst hba
      have hs : (∀ x ∈ es, b.now ≤ x.now)
          ∧ (es.map Env.now).Pairwise (fun a b => a ≤ b) := by simpa using hsorted
      rw [List.cons_append, runWorkers_cons, runWorkers_cons]
      refine ih (threadedConnection b w) h1 hs.2
        (fun x hx => hclock x (List.mem_cons_of_mem _ hx)) ?_ pre e hrest
      intro _ x hx
      rw [step_DateFailed]
      split
      · exact hs.1 x hx
      · rename_i hc
        have hfw : w.Con.IsFailed = true := by
          rcases Bool.eq_false_or_eq_true w.Con.IsFailed with t | t
          · exact t
          · exfalso
            rcases Bool.eq_false_or_eq_true b.workerFails with u | u
            · exact hc ⟨u, t⟩
            · have := threadedConnection_IsFailed b w
              simp_all
        exact hdf hfw x (List.mem_cons_of_mem _ hx)

/-- C4 (as stated, refuted): four reports with non-decreasing clock readings,
applied to the fresh record, after which `OutageElapsed` is not the total length
of the two closed episodes and is lower than it was before the last report. -/
theorem outageElapsed_total_counterexample :
    (longOutages.map Env.now).Pairwise (fun a b => a ≤ b)
    ∧ (runWorkers longOutages { Con := record3, trace := [] }).Con.OutageElapsed
        ≠ episodeTotal (closedEpisodes none longOutages)
    ∧ ¬ ((runWorkers (longOutages.take 3) { Con := record3, trace := [] }).Con.OutageElapsed
          ≤ (runWorkers (longOutages.take 3 ++ [⟨false, false, 9223372036854775817,
                9223372036854775817⟩])
              { Con := record3, trace := [] }).Con.OutageElapsed) := by
  refine ⟨by decide, ?_, ?_⟩ <;>
    simp [longOutages, runWorkers, threadedConnection_Con, outageTable, Env.workerFails,
      record3, newRecord, closedEpisodes, episodeTotal, addDuration, timeSince, sat64, wrap64,
      inc64]

/-- C4 (amended): starting from `OutageElapsed = 0` and `IsFailed = false`, and
as long as the length of every closed episode and every running total of them
fits in an `int64` number of nanoseconds, after every prefix of round-worker
reports `OutageElapsed` is the total length of the episodes closed so far, an
episode running from the `time.Now()` of the failure that opened it to the
clock reading of `time.Since` in the success that closed it.  In any case
`OutageElapsed` changes only at a success that arrives while an outage is open,
and a failure inside an open outage leaves `DateFailed` alone.  With
non-decreasing clock readings, and under the same proviso, `OutageElapsed`
never decreases. -/
theorem outageElapsed_totals_closed_episodes (w : World) (es : List Env)
    (h0 : w.Con.OutageElapsed = 0) (hu : w.Con.IsFailed = false) :
    (episodesFit 0 (closedEpisodes none es) = true →
      ∀ pre, pre <+: es →
        (runWorkers pre w).Con.OutageElapsed = episodeTotal (closedEpisodes none pre))
    ∧ (∀ pre e, pre ++ [e] <+: es →
        (runWorkers (pre ++ [e]) w).Con.OutageElapsed ≠ (runWorkers pre w).Con.OutageElapsed →
        e.workerFails = false ∧ (runWorkers pre w).Con.IsFailed = true)
    ∧ (∀ pre e, pre ++ [e] <+: es →
        e.workerFails = true → (runWorkers pre w).Con.IsFailed = true →
        (runWorkers (pre ++ [e]) w).Con.DateFailed = (runWorkers pre w).Con.DateFailed)
    ∧ (episodesFit 0 (closedEpisodes none es) = true →
        (es.map Env.now).Pairwise (fun a b => a ≤ b) →
        (∀ x ∈ es, x.now ≤ x.sinceNow) →
        ∀ pre e, pre ++ [e] <+: es →
          (runWorkers pre w).Con.OutageElapsed
            ≤ (runWorkers (pre ++ [e]) w).Con.OutageElapsed) := by
  have hopen : openEpisode w.Con = none := by simp [openEpisode, hu]
  refine ⟨?_, ?_, ?_, ?_⟩
  · intro hfit pre hpre
    obtain ⟨rest, hrest⟩ := hpre
    have hfitpre : episodesFit w.Con.OutageElapsed (closedEpisodes (openEpisode w.Con) pre)
        = true := by
      rw [h0, hopen]
      exact episodesFit_prefix pre rest none 0 (by rw [hrest]; exact hfit)
    rw [runWorkers_OutageElapsed pre w hfitpre, h0, hopen]
    simp
  · intro pre e _ hne
    rw [runWorkers_snoc, step_OutageElapsed] at hne
    by_contra hc
    exact hne (if_neg hc)
  · intro pre e _ hf hd
    rw [runWorkers_snoc, step_DateFailed]
    simp [hd]
  · intro hfit hs hclock pre e hpre
    refine runWorkers_OutageElapsed_mono es w ?_ hs hclock ?_ pre e hpre
    · rw [h0, hopen]; exact hfit
    · intro hc
      rw [hu] at hc
      exact absurd hc (by simp)

/-- C4 (amended) at a concrete run: an outage from 10 to 25 (with a further
failure at 12), then one from 40 to 41, then a failure at 50 that is still open;
the total is 15 + 1, and the closing at 41 did not lower it. -/
theorem outageElapsed_totals_closed_episodes_witness :
    (runWorkers [⟨false, true, 10, 10⟩, ⟨true, false, 12, 12⟩, ⟨false, false, 25, 25⟩,
        ⟨false, true, 40, 40⟩, ⟨false, false, 41, 41⟩, ⟨false, true, 50, 50⟩]
        { Con := record3, trace := [] }).Con.OutageElapsed = 16
    ∧ (runWorkers [⟨false, true, 10, 10⟩, ⟨true, false, 12, 12⟩, ⟨false, false, 25, 25⟩,
        ⟨false, true, 40, 40⟩] { Con := record3, trace := [] }).Con.OutageElapsed
      ≤ (runWorkers ([⟨false, true, 10, 10⟩, ⟨true, false, 12, 12⟩, ⟨false, false, 25, 25⟩,
          ⟨false, true, 40, 40⟩] ++ [⟨false, false, 41, 41⟩])
        { Con := record3, trace := [] }).Con.OutageElapsed := by
  have h := outageElapsed_totals_closed_episodes { Con := record3, trace := [] }
    [⟨false, true, 10, 10⟩, ⟨true, false, 12, 12⟩, ⟨false, false, 25, 25⟩,
     ⟨false, true, 40, 40⟩, ⟨false, false, 41, 41⟩, ⟨false, true, 50, 50⟩] rfl rfl
  refine ⟨?_, ?_⟩
  · simpa [closedEpisodes, episodeTotal, Env.workerFails] using
      h.1 (by decide) _ (List.prefix_refl _)
  · exact h.2.2.2 (by decide) (by simp) (by simp)
      [⟨false, true, 10, 10⟩, ⟨true, false, 12, 12⟩, ⟨false, false, 25, 25⟩,
       ⟨false, true, 40, 40⟩]
      ⟨false, false, 41, 41⟩ ⟨[⟨false, true, 50, 50⟩], rfl⟩

/-! ## One round of three workers -/

theorem runWorkers_Con_trace (es : List Env) :
    ∀ (w : World),
      (runWorkers es w).Con = (runWorkers es { Con := w.Con, trace := [] }).Con
      ∧ (runWorkers es w).trace = w.trace ++ roundEvents es w.Con := by
  induction es with
  | nil => intro w; simp [runWorkers, roundEvents]
  | cons e es ih =>
    intro w
    have hc : (threadedConnection e { Con := w.Con, trace := [] }).Con
        = (threadedConnection e w).Con := by
      rw [threadedConnection_Con, threadedConnection_Con]
    obtain ⟨a1, a2⟩ := ih (threadedConnection e w)
    obtain ⟨b1, b2⟩ := ih (threadedConnection e { Con := w.Con, trace := [] })
    constructor
    · rw [runWorkers_cons, runWorkers_cons, a1, b1, hc]
    · have hr : roundEvents (e :: es) w.Con
          = workerEvents e w.Con ++ roundEvents es (threadedConnection e w).Con := by
        show (runWorkers (e :: es) { Con := w.Con, trace := [] }).trace = _
        rw [runWorkers_cons, b2, hc]
        rfl
      rw [runWorkers_cons, a2, threadedConnection_trace, hr, List.append_assoc]

theorem roundEvents_cons (e : Env) (es : List Env) (s : connection) :
    roundEvents (e :: es) s
      = workerEvents e s ++ roundEvents es (outageTable s e.workerFails e.now e.sinceNow) := by
  show (runWorkers (e :: es) { Con := s, trace := [] }).trace = _
  rw [runWorkers_cons, (runWorkers_Con_trace es _).2, threadedConnection_Con]
  rfl

theorem roundEvents_nil (s : connection) : roundEvents [] s = [] := by
  simp [roundEvents, runWorkers]

theorem countDown_workerEvents (e : Env) (s : connection) :
    countDown (workerEvents e s) = if e.workerFails = true ∧ s.IsFailed = false then 1 else 0 := by
  obtain ⟨oe, qe, now, snow⟩ := e
  cases oe <;> cases qe <;> cases hf : s.IsFailed <;>
    simp [workerEvents_eq, countDown, Env.workerFails, hf, List.count_cons]

theorem countDateFailed_workerEvents (e : Env) (s : connection) :
    countDateFailed (workerEvents e s)
      = if e.workerFails = true ∧ s.IsFailed = false then 1 else 0 := by
  obtain ⟨oe, qe, now, snow⟩ := e
  cases oe <;> cases qe <;> cases hf : s.IsFailed <;>
    simp [workerEvents_eq, countDateFailed, Env.workerFails, hf, List.countP_cons]

theorem countDown_append (l1 l2 : List Event) :
    countDown (l1 ++ l2) = countDown l1 + countDown l2 := by
  simp [countDown]

theorem countDateFailed_append (l1 l2 : List Event) :
    countDateFailed (l1 ++ l2) = countDateFailed l1 + countDateFailed l2 := by
  simp [countDateFailed]

/-- C8 (as stated, refuted): when the success is reported between the two
failures the transition from up to down is taken twice and `DateFailed` is
stored twice, so the four statements do not all hold. -/
theorem one_transition_per_round_counterexample :
    ¬ ((runWorkers [⟨false, true, 1, 1⟩, ⟨false, false, 2, 2⟩, ⟨false, true, 3, 3⟩]
          { Con := record3, trace := [] }).Con.Failed = 2
       ∧ (runWorkers [⟨false, true, 1, 1⟩, ⟨false, false, 2, 2⟩, ⟨false, true, 3, 3⟩]
          { Con := record3, trace := [] }).Con.Passed = 1
       ∧ countDown (roundEvents [⟨false, true, 1, 1⟩, ⟨false, false, 2, 2⟩, ⟨false, true, 3, 3⟩]
          record3) = 1
       ∧ countDateFailed (roundEvents [⟨false, true, 1, 1⟩, ⟨false, false, 2, 2⟩, ⟨false, true, 3, 3⟩]
          record3) = 1) := by
  intro h
  have h3 := h.2.2.1
  simp [roundEvents_cons, roundEvents_nil, countDown_append, countDown_workerEvents,
    outageTable, Env.workerFails, record3, newRecord] at h3

/-- C8 (amended): in every order in which three workers report two failures and
one success to a record with `Passed = 0`, `Failed = 0`, `IsFailed = false`, the
round ends with `Failed = 2` and `Passed = 1`; the transition from up to down is
taken once, and `DateFailed` stored once, unless the success is reported between
the two failures, in which case both happen twice. -/
theorem one_transition_per_episode_in_round (s : connection) (es : List Env)
    (hP : s.Passed = 0) (hF : s.Failed = 0) (hU : s.IsFailed = false)
    (hlen : es.length = 3) (hcount : es.countP Env.workerFails = 2) :
    (runWorkers es { Con := s, trace := [] }).Con.Failed = 2
    ∧ (runWorkers es { Con := s, trace := [] }).Con.Passed = 1
    ∧ countDown (roundEvents es s)
        = (if es.map Env.workerFails = [true, false, true] then 2 else 1)
    ∧ countDateFailed (roundEvents es s)
        = (if es.map Env.workerFails = [true, false, true] then 2 else 1) := by
  match es, hlen with
  | [a, b, c], _ =>
    simp only [runWorkers_cons, roundEvents_cons, roundEvents_nil, threadedConnection_Con,
      countDown_append, countDateFailed_append, countDown_workerEvents,
      countDateFailed_workerEvents, List.append_nil, List.map_cons, List.map_nil]
    simp only [runWorkers, List.foldl_nil]
    rcases Bool.eq_false_or_eq_true a.workerFails with ha | ha <;>
      rcases Bool.eq_false_or_eq_true b.workerFails with hb | hb <;>
      rcases Bool.eq_false_or_eq_true c.workerFails with hc | hc <;>
      simp [ha, hb, hc, List.countP_cons] at hcount <;>
      simp [ha, hb, hc, threadedConnection_Con, outageTable, hP, hF, hU, inc64, wrap64]

/-- C8 (amended) at a concrete round: failure, failure, success. -/
theorem one_transition_per_episode_in_round_witness :
    (runWorkers [⟨false, true, 1, 1⟩, ⟨true, false, 2, 2⟩, ⟨false, false, 3, 3⟩]
        { Con := record3, trace := [] }).Con.Failed = 2
    ∧ (runWorkers [⟨false, true, 1, 1⟩, ⟨true, false, 2, 2⟩, ⟨false, false, 3, 3⟩]
        { Con := record3, trace := [] }).Con.Passed = 1
    ∧ countDown (roundEvents [⟨false, true, 1, 1⟩, ⟨true, false, 2, 2⟩, ⟨false, false, 3, 3⟩] record3) = 1
    ∧ countDateFailed
        (roundEvents [⟨false, true, 1, 1⟩, ⟨true, false, 2, 2⟩, ⟨false, false, 3, 3⟩] record3) = 1 := by
  have h := one_transition_per_episode_in_round record3
    [⟨false, true, 1, 1⟩, ⟨true, false, 2, 2⟩, ⟨false, false, 3, 3⟩] rfl rfl rfl rfl
    (by simp [List.countP_cons, Env.workerFails])
  simpa [Env.workerFails] using h

/-! ## Interleaved and serial rounds -/

theorem runAlone_fresh (e : Env) (s : connection) (r r2 : Int) :
    (runAlone maxSteps { env := e, pc := PC.start, reg := r, reg2 := r2 } s).2.1
        = outageTable s e.workerFails e.now e.sinceNow
    ∧ (runAlone maxSteps { env := e, pc := PC.start, reg := r, reg2 := r2 } s).2.2
        = workerEvents e s
    ∧ (runAlone maxSteps { env := e, pc := PC.start, reg := r, reg2 := r2 } s).1.pc
        = PC.finished := by
  obtain ⟨oe, qe, now, snow⟩ := e
  cases oe <;> cases qe <;> cases hf : s.IsFailed <;>
    simp [maxSteps, runAlone, exec, workerEvents_eq, outageTable, Env.workerFails, hf]

theorem set_of_getElem? {α : Type} (l : List α) :
    ∀ (i : Nat) (a : α), l[i]? = some a → l.set i a = l := by
  induction l with
  | nil => intro i a _; rfl
  | cons x xs ih =>
    intro i a h
    cases i with
    | zero =>
      simp only [List.getElem?_cons_zero, Option.some.injEq] at h
      simp [h]
    | succ i =>
      simp only [List.getElem?_cons_succ] at h
      simp [ih i a h]

theorem Pool.run_append (a b : List Nat) (p : Pool) :
    Pool.run (a ++ b) p = Pool.run b (Pool.run a p) := by
  simp [Pool.run, List.foldl_append]

theorem Pool.run_replicate (n : Nat) (i : Nat) :
    ∀ (p : Pool) (wk : Worker), p.workers[i]? = some wk →
      Pool.run (List.replicate n i) p =
        { Con := (runAlone n wk p.Con).2.1,
          trace := p.trace ++ (runAlone n wk p.Con).2.2.map (fun ev => (i, ev)),
          workers := p.workers.set i (runAlone n wk p.Con).1 } := by
  induction n with
  | zero =>
    intro p wk h
    simp [Pool.run, runAlone, set_of_getElem? p.workers i wk h]
  | succ n ih =>
    intro p wk h
    obtain ⟨hlt, _⟩ := List.getElem?_eq_some.mp h
    have hstep : Pool.step p i =
        { Con := (exec wk p.Con).2.1,
          trace := p.trace ++ (exec wk p.Con).2.2.map (fun ev => (i, ev)),
          workers := p.workers.set i (exec wk p.Con).1 } := by
      simp [Pool.step, h]
    have hrun : Pool.run (List.replicate (n + 1) i) p
        = Pool.run (List.replicate n i) (Pool.step p i) := by
      simp [Pool.run, List.replicate_succ]
    have hnext : (Pool.step p i).workers[i]? = some (exec wk p.Con).1 := by
      rw [hstep]
      simp [List.getElem?_set_self, hlt]
    rw [hrun, ih (Pool.step p i) _ hnext, hstep]
    simp [runAlone, List.set_set, List.append_assoc]

theorem Pool.run_serial (envs : Nat → Env) (order : List Nat) :
    order.Nodup → ∀ (p : Pool),
      (∀ i ∈ order, ∃ wk, p.workers[i]? = some wk ∧ wk.pc = PC.start ∧ wk.env = envs i) →
      (Pool.run (serialSchedule order) p).Con
          = (runWorkers (order.map envs) { Con := p.Con, trace := [] }).Con
      ∧ (Pool.run (serialSchedule order) p).trace.map Prod.snd
          = p.trace.map Prod.snd ++ roundEvents (order.map envs) p.Con
      ∧ (∀ j, j ∉ order → (Pool.run (serialSchedule order) p).workers[j]? = p.workers[j]?)
      ∧ (∀ i ∈ order, ∃ wk,
          (Pool.run (serialSchedule order) p).workers[i]? = some wk ∧ wk.pc = PC.finished)
      ∧ (Pool.run (serialSchedule order) p).workers.length = p.workers.length := by
  induction order with
  | nil =>
    intro _ p _
    simp [serialSchedule, Pool.run, runWorkers, roundEvents]
  | cons i rest ih =>
    intro hnd p hp
    obtain ⟨hi, hrest⟩ := List.nodup_cons.mp hnd
    obtain ⟨wk, hwk, hpc, henv⟩ := hp i (List.mem_cons_self i rest)
    obtain ⟨we, wpc, wr, wr2⟩ := wk
    simp only at hpc henv
    subst hpc henv
    obtain ⟨f1, f2, f3⟩ := runAlone_fresh (envs i) p.Con wr wr2
    have hsched : serialSchedule (i :: rest)
        = List.replicate maxSteps i ++ serialSchedule rest := by
      simp [serialSchedule]
    have hp1 := Pool.run_replicate maxSteps i p _ hwk
    rw [f1, f2] at hp1
    have hlt : i < p.workers.length := (List.getElem?_eq_some.mp hwk).1
    have hrestp : ∀ j ∈ rest, ∃ wk,
        (Pool.run (List.replicate maxSteps i) p).workers[j]? = some wk
          ∧ wk.pc = PC.start ∧ wk.env = envs j := by
      intro j hj
      have hne : i ≠ j := fun h => hi (h ▸ hj)
      rw [hp1]
      simp only
      rw [List.getElem?_set_ne hne]
      exact hp j (List.mem_cons_of_mem _ hj)
    obtain ⟨c1, c2, c3, c4, c5⟩ := ih hrest (Pool.run (List.replicate maxSteps i) p) hrestp
    rw [hsched, Pool.run_append]
    refine ⟨?_, ?_, ?_, ?_, ?_⟩
    · rw [c1, hp1, List.map_cons, runWorkers_cons,
        (runWorkers_Con_trace (rest.map envs)
          (threadedConnection (envs i) { Con := p.Con, trace := [] })).1,
        threadedConnection_Con]
    · rw [c2, List.map_cons, roundEvents_cons, hp1]
      simp [List.map_append, Function.comp_def]
    · intro j hj
      have hj1 : j ∉ rest := fun h => hj (List.mem_cons_of_mem _ h)
      have hne : i ≠ j := fun h => hj (h ▸ List.mem_cons_self i rest)
      rw [c3 j hj1, hp1]
      simp only
      rw [List.getElem?_set_ne hne]
    · intro j hj
      rcases List.mem_cons.mp hj with hji | hjr
      · subst hji
        rw [c3 j hi, hp1]
        exact ⟨_, by simp [List.getElem?_set_self, hlt], f3⟩
      · exact c4 j hjr
    · rw [c5, hp1]
      simp

theorem edges_eq (tr : List (Nat × Event)) :
    edges tr = (tr.map Prod.snd).filterMap edgeOf := by
  simp [edges, List.filterMap_map, Function.comp_def]

theorem edges_workerEvents (e : Env) (s : connection) :
    (workerEvents e s).filterMap edgeOf =
      if e.workerFails = true ∧ s.IsFailed = false then [true]
      else if e.workerFails = false ∧ s.IsFailed = true then [false]
      else [] := by
  obtain ⟨oe, qe, now, snow⟩ := e
  cases oe <;> cases qe <;> cases hf : s.IsFailed <;>
    simp [workerEvents_eq, edgeOf, Env.workerFails, hf, List.filterMap_cons]

theorem alternating_roundEvents (es : List Env) :
    ∀ (s : connection), alternating s.IsFailed ((roundEvents es s).filterMap edgeOf) = true := by
  induction es with
  | nil => intro s; simp [roundEvents_nil, alternating]
  | cons e es ih =>
    intro s
    have hnext := ih (outageTable s e.workerFails e.now e.sinceNow)
    rw [roundEvents_cons, List.filterMap_append, edges_workerEvents]
    rcases Bool.eq_false_or_eq_true e.workerFails with h | h <;>
      cases hf : s.IsFailed <;>
      simp [h, hf, outageTable, alternating] at hnext ⊢ <;>
      exact hnext

theorem runWorkers_counters (es : List Env) :
    ∀ (w : World),
      (runWorkers es w).Con.Passed
          = inc64^[es.countP (fun e => !e.workerFails)] w.Con.Passed
      ∧ (runWorkers es w).Con.Failed
          = inc64^[es.countP (fun e => e.workerFails)] w.Con.Failed := by
  induction es with
  | nil => intro w; simp [runWorkers]
  | cons e es ih =>
    intro w
    obtain ⟨i1, i2⟩ := ih (threadedConnection e w)
    rw [runWorkers_cons, i1, i2, threadedConnection_Con]
    rcases Bool.eq_false_or_eq_true e.workerFails with h | h <;>
      cases hf : w.Con.IsFailed <;>
      simp [h, hf, outageTable, List.countP_cons, Function.iterate_succ_apply]

set_option maxRecDepth 8000 in
/-- C5 (as stated, refuted): two complete interleavings of a round of two
workers in which the bookkeeping goes wrong.  In the first both workers fail,
both take the transition from up to down and one increment of `Failed` is lost;
in the second both succeed while one outage is open and both add its length to
`OutageElapsed`. -/
theorem interleaved_round_counterexample :
    (racyFailures.allFinished = true
      ∧ soundRound (fun _ => { openErr := false, queryErr := true, now := 20, sinceNow := 20 })
          (newRecord { c := 2 }) racyFailures = false
      ∧ edges racyFailures.trace = [true, true]
      ∧ racyFailures.Con.Failed = 1)
    ∧ (racySuccesses.allFinished = true
      ∧ soundRound (fun x => { openErr := false, queryErr := false, now := 30 + x, sinceNow := 30 + x })
          { newRecord { c := 2 } with IsFailed := true, DateFailed := 10, Failed := 2 }
          racySuccesses = false
      ∧ edges racySuccesses.trace = [false, false]
      ∧ racySuccesses.Con.OutageElapsed = 41) := by
  decide

/-- C5 (amended): when the workers of a round run one at a time, in any order,
each to completion before the next starts, every worker finishes, outages are
opened and closed in turns (one transition from up to down per episode, one
addition to `OutageElapsed` per closing) and no counter increment is lost. -/
theorem serial_round_is_sound (envs : Nat → Env) (s : connection) (order : List Nat)
    (hperm : order.Perm (List.range s.Count.toNat)) :
    (Pool.run (serialSchedule order) (newConnectionRound envs s)).allFinished = true
    ∧ soundRound envs s (Pool.run (serialSchedule order) (newConnectionRound envs s)) = true := by
  have hnd : order.Nodup := hperm.nodup_iff.mpr (List.nodup_range _)
  have hmem : ∀ i, i ∈ order ↔ i < s.Count.toNat := fun i =>
    (hperm.mem_iff).trans List.mem_range
  have hspawn : ∀ i ∈ order, ∃ wk,
      (newConnectionRound envs s).workers[i]? = some wk ∧ wk.pc = PC.start ∧ wk.env = envs i := by
    intro i hi
    have hlt := (hmem i).mp hi
    exact ⟨{ env := envs i, pc := PC.start, reg := 0, reg2 := 0 },
      by simp [newConnectionRound, List.getElem?_map, List.getElem?_range hlt], rfl, rfl⟩
  obtain ⟨c1, c2, _, c4, c5⟩ := Pool.run_serial envs order hnd (newConnectionRound envs s) hspawn
  constructor
  · rw [Pool.allFinished, List.all_eq_true]
    intro wk hwk
    obtain ⟨j, hj⟩ := List.mem_iff_getElem?.mp hwk
    have hjlt : j < s.Count.toNat := by
      have h1 := (List.getElem?_eq_some.mp hj).1
      rw [c5] at h1
      simpa [newConnectionRound] using h1
    obtain ⟨wk2, hwk2, hfin⟩ := c4 j ((hmem j).mpr hjlt)
    rw [hj, Option.some.injEq] at hwk2
    subst hwk2
    simp [hfin]
  · have hcon : (newConnectionRound envs s).Con = s := rfl
    have htr : (newConnectionRound envs s).trace = [] := rfl
    rw [hcon] at c1 c2
    rw [htr] at c2
    obtain ⟨k1, k2⟩ := runWorkers_counters (order.map envs) { Con := s, trace := [] }
    have hP : (order.map envs).countP (fun e => !e.workerFails)
        = (List.range s.Count.toNat).countP (fun x => !(envs x).workerFails) := by
      rw [List.countP_map]
      exact hperm.countP_eq _
    have hF : (order.map envs).countP (fun e => e.workerFails)
        = (List.range s.Count.toNat).countP (fun x => (envs x).workerFails) := by
      rw [List.countP_map]
      exact hperm.countP_eq _
    simp only [soundRound, Bool.and_eq_true, beq_iff_eq]
    refine ⟨⟨?_, ?_⟩, ?_⟩
    · rw [edges_eq, c2]
      simpa using alternating_roundEvents (order.map envs) s
    · rw [c1, k1, hP]
    · rw [c1, k2, hF]

/-- C5 (amended) at a concrete round: two workers, the second one first. -/
theorem serial_round_is_sound_witness :
    (Pool.run (serialSchedule [1, 0])
        (newConnectionRound (fun _ => { openErr := false, queryErr := true, now := 20, sinceNow := 20 })
          (newRecord { c := 2 }))).allFinished = true
    ∧ soundRound (fun _ => { openErr := false, queryErr := true, now := 20, sinceNow := 20 })
        (newRecord { c := 2 })
        (Pool.run (serialSchedule [1, 0])
          (newConnectionRound (fun _ => { openErr := false, queryErr := true, now := 20, sinceNow := 20 })
            (newRecord { c := 2 }))) = true :=
  serial_round_is_sound (fun _ => { openErr := false, queryErr := true, now := 20, sinceNow := 20 })
    (newRecord { c := 2 }) [1, 0] (by decide)

end PostQLCheck
